import Mathlib

/-!
Verification development for the gohenry Matrix chatbot.

The definitions below are a shallow embedding of the Go source:
text is modelled as `List Char`, the helpers from Go's `strings`
package are reimplemented with the same semantics (on the ASCII
fragment exercised by the program's identity/mention logic), and the
core functions (`IsAddressedToBot`, `IsFromAllowedDomain`,
`getConversationContext`, `HandleMessage`, the sync-event callback of
`ListenForMessages` and its reconnect loop) are translated
function-by-function.  Collaborator calls (history fetch, room-type
lookup, generation backend, send primitives) are passed in as explicit
results, mirroring the interfaces in `ports/services`.
-/

namespace GoHenry

/-- Text is modelled as a list of characters. -/
abbrev Str := List Char

/-- Whitespace test used by Go's `strings.Fields` / `strings.TrimSpace`
(ASCII fragment: space, tab, newline, vertical tab, form feed, carriage return). -/
def isSpaceChar (c : Char) : Bool :=
  c = ' ' || c = '\t' || c = '\n' || c = Char.ofNat 11 || c = Char.ofNat 12 || c = '\r'

/-- Models `strings.ToLower` on the ASCII fragment (Go lowercases
Unicode generally; the identities and mention tokens handled by the
program are ASCII). -/
def strToLower (s : Str) : Str := s.map Char.toLower

/-- Models `strings.HasPrefix`. -/
def strStartsWith : Str → Str → Bool
  | _, [] => true
  | [], _ :: _ => false
  | c :: s, d :: p => c = d && strStartsWith s p

/-- Models `strings.Contains` (substring containment). -/
def strContains : Str → Str → Bool
  | hay, needle =>
    if strStartsWith hay needle then true
    else
      match hay with
      | [] => false
      | _ :: rest => strContains rest needle

/-- Models `strings.TrimPrefix`. -/
def strTrimLead (s pre : Str) : Str :=
  if strStartsWith s pre then s.drop pre.length else s

/-- Splits at every character satisfying `p`, keeping (possibly empty)
segments; the backbone of `strings.Split` and `strings.Fields`. -/
def strSplitBy (p : Char → Bool) : Str → List Str
  | [] => [[]]
  | c :: rest =>
    match strSplitBy p rest with
    | [] => [[c]]
    | h :: t => if p c then [] :: h :: t else (c :: h) :: t

/-- Models `strings.Split` with a one-character separator. -/
def strSplitOnChar (sep : Char) (s : Str) : List Str :=
  strSplitBy (fun c => c = sep) s

/-- Models `strings.Fields`: maximal runs of non-whitespace characters. -/
def strFields (s : Str) : List Str :=
  (strSplitBy isSpaceChar s).filter (fun w => !w.isEmpty)

/-- Trims leading and trailing characters satisfying `p`. -/
def strTrimBy (p : Char → Bool) (s : Str) : Str :=
  ((s.dropWhile p).reverse.dropWhile p).reverse

/-- Models `strings.Trim` with a cutset. -/
def strTrim (s : Str) (cutset : List Char) : Str :=
  strTrimBy (fun c => cutset.contains c) s

/-- Models `strings.TrimSpace`. -/
def strTrimSpace (s : Str) : Str := strTrimBy isSpaceChar s

/-- Replacement loop of `strings.ReplaceAll` for a non-empty pattern:
left-to-right, non-overlapping. -/
def strReplaceLoop (old new : Str) : Str → Str
  | [] => []
  | c :: rest =>
    if !old.isEmpty && strStartsWith (c :: rest) old then
      new ++ strReplaceLoop old new (rest.drop (old.length - 1))
    else
      c :: strReplaceLoop old new rest
termination_by s => s.length
decreasing_by
  · simp only [List.length_drop, List.length_cons]; omega
  · simp only [List.length_cons]; omega

/-- Models `strings.ReplaceAll` (including Go's empty-pattern
behaviour, which interleaves the replacement between characters). -/
def strReplaceAll (s old new : Str) : Str :=
  if old.isEmpty then new ++ s.flatMap (fun c => c :: new)
  else strReplaceLoop old new s

/-- Prefix of `s` up to (excluding) the first colon; models the
`strings.Index(s, ":")` + slice idiom used to obtain the local part of
a Matrix user ID. -/
def cutAtColon (s : Str) : Str := s.takeWhile (fun c => !(c = ':'))

/-- Number of occurrences of a character in a string. -/
def countChar (c : Char) (s : Str) : Nat := s.countP (fun d => d = c)

/-- RoomType from `internal/domain`: direct (two joined members) or group. -/
inductive RoomType
  | directRoom
  | groupRoom
deriving DecidableEq

/-- Role of a conversation message (`domain.RoleUser` / `domain.RoleAssistant`). -/
inductive Role
  | user
  | assistant
deriving DecidableEq

/-- domain.Message: a history event as returned by `GetRoomContext`. -/
structure Message where
  id : Str
  roomID : Str
  senderID : Str
  content : Str
  timestamp : Int
  isFromBot : Bool
deriving DecidableEq

/-- domain.ConversationMessage: the unit fed to the generation backend. -/
structure ConversationMessage where
  role : Role
  content : Str
  timestamp : Int
  senderID : Str
deriving DecidableEq

/-- Punctuation characters accepted after the local name inside a word
(`nextChar` check in `IsAddressedToBot`). -/
def punctAfterChars : List Char := [',', '.', '!', '?', ':', ';']

/-- Cutset of `strings.Trim` applied to each word in `IsAddressedToBot`. -/
def trimCutsetChars : List Char :=
  [',', '.', '!', '?', ':', ';', Char.ofNat 34, Char.ofNat 39,
   '(', ')', '[', ']', Char.ofNat 123, Char.ofNat 125]

/-- Per-word check of the group-room name matching in `IsAddressedToBot`:
trim punctuation, direct equality with the local part, or local part as
a proper prefix followed by a punctuation character. -/
def wordCheck (localpart word0 : Str) : Bool :=
  let word := strToLower (strTrim word0 trimCutsetChars)
  if word = localpart then true
  else if strStartsWith word localpart && decide (localpart.length < word.length) then
    punctAfterChars.contains (word.getD localpart.length ' ')
  else false

/-- Full qualified-identity check of `IsAddressedToBot`: the lowercased
content is searched for the verbatim `@name:domain` token. -/
def fullMentionCheck (userID content : Str) : Bool :=
  let fullUsername := strTrimLead userID ['@']
  let fullMention := '@' :: fullUsername
  strContains (strToLower content) fullMention

/-- IsAddressedToBot from `matrix/client.go`: always true in direct
rooms; in group rooms the full mention, a word-boundary local-name
match, or a `name:` colon idiom. -/
def isAddressedToBot (userID content : Str) (roomType : RoomType) : Bool :=
  if roomType = RoomType.directRoom then true
  else
    let fullUsername := strTrimLead userID ['@']
    let localpart := strToLower (cutAtColon fullUsername)
    let lowered := strToLower content
    if fullMentionCheck userID content then true
    else if strContains lowered localpart && (strFields lowered).any (wordCheck localpart) then
      true
    else strContains lowered (localpart ++ [':'])

/-- IsFromAllowedDomain from `matrix/client.go`: split the user ID on
colons; exactly two parts are required and the second must equal the
configured domain. -/
def isFromAllowedDomain (allowedDomain userID : Str) : Bool :=
  let parts := strSplitOnChar ':' userID
  if parts.length = 2 then decide (parts.getD 1 [] = allowedDomain) else false

/-- Local part of the bot's user ID: strip the `@` prefix, cut at the
first colon (shared idiom of `HandleMessage` and `getConversationContext`). -/
def localpartOfBotID (botID : Str) : Str :=
  cutAtColon (strTrimLead botID ['@'])

/-- Mention stripping applied to history entries inside
`getConversationContext` (the repeated `strings.ReplaceAll` pass over
the raw bot ID and the bare local part). -/
def stripHistoryMention (botID content : Str) : Str :=
  let localpart := localpartOfBotID botID
  let c1 := strReplaceAll content botID []
  let c2 := strReplaceAll c1 (' ' :: (localpart ++ [' '])) [' ']
  let c3 := strReplaceAll c2 (' ' :: localpart) []
  let c4 := if strStartsWith c3 (localpart ++ [' ']) then c3.drop (localpart.length + 1) else c3
  let c5 := if c4 = localpart then [] else c4
  strTrimSpace c5

/-- Per-event processing of the chronological loop in
`getConversationContext`: skip empty bodies, tag the role from
`IsFromBot`, strip the bot's mention from user messages that contain
it, and drop the entry if stripping leaves it empty. -/
def processHistoryMessage (botID : Str) (msg : Message) : Option ConversationMessage :=
  if msg.content = [] then none
  else
    let role := if msg.isFromBot then Role.assistant else Role.user
    let localpart := localpartOfBotID botID
    let msgContent :=
      if !msg.isFromBot &&
          (strContains msg.content botID ||
            strContains (strToLower msg.content) (strToLower localpart)) then
        stripHistoryMention botID msg.content
      else msg.content
    if msgContent = [] then none
    else some ⟨role, msgContent, msg.timestamp, msg.senderID⟩

/-- History list obtained from the `GetRoomContext` call in
`getConversationContext`: a fetch error degrades to the empty history,
and empty-bodied entries are skipped. -/
def historyFromFetch (fetchResult : Except Str (List Message)) : List Message :=
  match fetchResult with
  | .error _ => []
  | .ok msgs => msgs.filter (fun m => !m.content.isEmpty)

/-- The reconciled prior window: the reverse-chronological fetch is
reversed into chronological order and each event is processed. -/
def reconciledHistory (botID : Str) (fetchResult : Except Str (List Message)) :
    List ConversationMessage :=
  ((historyFromFetch fetchResult).reverse).filterMap (processHistoryMessage botID)

/-- Deduplication predicate of `getConversationContext`: same content,
same sender, and the entry's timestamp within 5000 ms before the
current timestamp (`currentTimestamp - msg.Timestamp < 5000`). -/
def dedupMatches (senderID currentMessage : Str) (currentTimestamp : Int)
    (m : ConversationMessage) : Bool :=
  decide (m.content = currentMessage ∧ m.senderID = senderID ∧
    currentTimestamp - m.timestamp < 5000)

/-- getConversationContext from `usecases/chat`: reconcile the fetched
history, then append the current message as a `user` entry unless some
reconciled entry already matches it.  The Go function's error result
is always nil; the room-type lookup at its start only affects logging. -/
def getConversationContext (botID senderID currentMessage : Str) (currentTimestamp : Int)
    (fetchResult : Except Str (List Message)) : Except Str (List ConversationMessage) :=
  let conversationMessages := reconciledHistory botID fetchResult
  let currentMessageExists :=
    conversationMessages.any (dedupMatches senderID currentMessage currentTimestamp)
  if currentMessageExists then Except.ok conversationMessages
  else
    Except.ok (conversationMessages ++
      [⟨Role.user, currentMessage, currentTimestamp, senderID⟩])

/-- The context window itself (the list carried by the always-`ok`
result of `getConversationContext`). -/
def contextList (botID senderID currentMessage : Str) (currentTimestamp : Int)
    (fetchResult : Except Str (List Message)) : List ConversationMessage :=
  match getConversationContext botID senderID currentMessage currentTimestamp fetchResult with
  | .ok l => l
  | .error _ => []

/-- Mention stripping applied to the incoming message in group rooms by
`HandleMessage` (full mention via `@` + trimmed ID, then the bare local
part with ad hoc word boundaries). -/
def stripIncoming (botID content : Str) : Str :=
  let fullUsername := strTrimLead botID ['@']
  let localpart := cutAtColon fullUsername
  let fullMention := '@' :: fullUsername
  let t1 := strReplaceAll content fullMention []
  let t2 := strReplaceAll t1 (' ' :: (localpart ++ [' '])) [' ']
  let t3 := strReplaceAll t2 (' ' :: localpart) []
  let t4 := if strStartsWith t3 (localpart ++ [' ']) then t3.drop (localpart.length + 1) else t3
  let t5 := if t4 = localpart then [] else t4
  strTrimSpace t5

/-- Collaborator results consumed by one `HandleMessage` invocation
(the black-box calls of `MatrixService` and `AIService`). -/
structure HandlerEnv where
  botID : Str
  allowedDomain : Str
  roomTypeResult : Except Str RoomType
  fetchResult : Except Str (List Message)
  currentTimestamp : Int
  generateResult : Except Str Str
  sendResult : Except Str Unit

/-- Observable outcome of one `HandleMessage` invocation: the
`SendMessage` calls it makes, the `SendTyping` calls, and its returned
error. -/
structure HandlerOutput where
  sentMessages : List (Str × Str)
  typingCalls : List (Str × Bool × Nat)
  result : Except Str Unit

/-- Fixed apology sent when the generation backend fails (the
apostrophe is spelled via its code point). -/
def apologyText : Str :=
  ("Sorry, I".data) ++ [Char.ofNat 39] ++ ("m having trouble thinking right now.".data)

/-- HandleMessage from `usecases/chat`: skip empty content, silently
drop disallowed senders, fail when the room type cannot be determined,
apply the mention detector, strip the mention in group rooms, build the
context, and call the backend (the context-error fallback in the Go
source is dead code since `getConversationContext` never returns an
error).  Typing failures are non-fatal and not modelled as errors. -/
def handleMessage (env : HandlerEnv) (senderID roomID content : Str) : HandlerOutput :=
  if content = [] then ⟨[], [], Except.ok ()⟩
  else if !(isFromAllowedDomain env.allowedDomain senderID) then ⟨[], [], Except.ok ()⟩
  else
    match env.roomTypeResult with
    | .error e => ⟨[], [], Except.error ("error determining room type: ".data ++ e)⟩
    | .ok roomType =>
      if !(isAddressedToBot env.botID content roomType) then ⟨[], [], Except.ok ()⟩
      else
        let messageText :=
          if roomType = RoomType.groupRoom then stripIncoming env.botID content else content
        if messageText = [] then ⟨[], [], Except.ok ()⟩
        else
          let _contextMessages :=
            contextList env.botID senderID messageText env.currentTimestamp env.fetchResult
          match env.generateResult with
          | .error _ =>
            ⟨[(roomID, apologyText)], [(roomID, true, 30000)],
              Except.error "error generating response".data⟩
          | .ok resp =>
            match env.sendResult with
            | .error _ =>
              ⟨[(roomID, resp)], [(roomID, true, 30000), (roomID, false, 0)],
                Except.error "error sending response".data⟩
            | .ok _ =>
              ⟨[(roomID, resp)], [(roomID, true, 30000), (roomID, false, 0)],
                Except.ok ()⟩

/-- Event kinds distinguished by the sync callback (`event.EventMessage`,
`event.StateMember`, anything else). -/
inductive EventType
  | message
  | stateMember
  | other
deriving DecidableEq

/-- A delivered sync event, with the fields the callback inspects. -/
structure MEvent where
  eventType : EventType
  sender : Str
  roomID : Str
  timestamp : Int
  stateKey : Option Str
  membership : Option Str
deriving DecidableEq

/-- Matrix membership value `event.MembershipInvite`. -/
def membershipInvite : Str := "invite".data

/-- Mutable session fields of the client touched by the sync callback
(`startupTime`, `lastProcessedTime`; `NewClient` initialises both to
the startup instant). -/
structure SessionState where
  startupTime : Int
  lastProcessedTime : Int
deriving DecidableEq

/-- Observable outcome of one callback invocation: the updated session
state, the event dispatched to the message handler (if any), and the
room of an automatic join attempt (if any). -/
structure CallbackResult where
  state : SessionState
  dispatched : Option MEvent
  joinAttempt : Option Str
deriving DecidableEq

/-- The `syncer.OnEvent` callback of `ListenForMessages`: discard
positive-timestamp events older than startup or not newer than the
watermark, advance the watermark, auto-join invites addressed to the
bot, and dispatch non-self message events to the handler. -/
def onEvent (userID : Str) (s : SessionState) (evt : MEvent) : CallbackResult :=
  if evt.timestamp > 0 ∧ evt.timestamp < s.startupTime then ⟨s, none, none⟩
  else if evt.timestamp > 0 ∧ evt.timestamp ≤ s.lastProcessedTime then ⟨s, none, none⟩
  else
    let s1 : SessionState :=
      if evt.timestamp > 0 then ⟨s.startupTime, evt.timestamp⟩ else s
    let join : Option Str :=
      if evt.eventType = EventType.stateMember ∧ evt.membership = some membershipInvite ∧
          evt.stateKey = some userID then
        some evt.roomID
      else none
    if evt.eventType ≠ EventType.message then ⟨s1, none, join⟩
    else if evt.sender = userID then ⟨s1, none, join⟩
    else ⟨s1, some evt, join⟩

/-- Delivery of a sequence of events to the callback: the final session
state and the list of events dispatched to the handler, in order. -/
def runEvents (userID : Str) : SessionState → List MEvent → SessionState × List MEvent
  | s, [] => (s, [])
  | s, e :: rest =>
    let r := onEvent userID s e
    let rr := runEvents userID r.state rest
    (rr.1, (match r.dispatched with | some d => [d] | none => []) ++ rr.2)

/-- Authentication-failure signature test applied to a sync error
(`M_UNKNOWN_TOKEN`, `Invalid access token`, or `401`). -/
def isAuthErrorMsg (msg : Str) : Bool :=
  strContains msg "M_UNKNOWN_TOKEN".data ||
  strContains msg "Invalid access token".data ||
  strContains msg "401".data

/-- Observable outcome of one iteration of the reconnect loop in
`ListenForMessages` after `Sync()` returns: the in-memory sync token,
the values written to the token store, the delay before the next
iteration (ms), and whether the loop re-enters streaming. -/
structure SyncOutcome where
  memToken : Str
  storeWrites : List Str
  sleepMs : Nat
  reenter : Bool
deriving DecidableEq

/-- One iteration of the reconnect loop after `Sync()` terminates:
`syncErr` is the termination error (none for a clean return) and
`nextBatch` is the latest cursor known to the client store.  On an
auth-signature error the token is cleared in memory, an empty value is
written to the store, and the loop exits; otherwise the non-empty
cursor is persisted, and the loop sleeps 5000 ms only when the
termination carried an error before re-entering streaming. -/
def syncLoopStep (syncToken : Str) (syncErr : Option Str) (nextBatch : Str) : SyncOutcome :=
  let isAuth := match syncErr with
    | some msg => isAuthErrorMsg msg
    | none => false
  if isAuth then ⟨[], [[]], 0, false⟩
  else
    let tok := if !nextBatch.isEmpty then nextBatch else syncToken
    let writes := if !nextBatch.isEmpty then [nextBatch] else []
    let sleep := if syncErr.isSome then 5000 else 0
    ⟨tok, writes, sleep, true⟩

/-- Concrete session state for the stale-event scenarios (startup time
1000 ms; the watermark starts equal to it, as in `NewClient`). -/
def sampleState : SessionState := ⟨1000, 1000⟩

/-- Concrete message event carrying no origin timestamp (timestamp 0). -/
def zeroTsEvent : MEvent :=
  ⟨EventType.message, "@user:hs".data, "!room:hs".data, 0, none, none⟩

/-- Concrete message event older than the sample startup time. -/
def staleEvent : MEvent :=
  ⟨EventType.message, "@user:hs".data, "!room:hs".data, 5, none, none⟩

/-- Concrete history entry matching the current message of the
deduplication scenarios (sender `u`, body `hi`, 9000 ms). -/
def dupHistMsg : Message := ⟨"e1".data, "!r".data, "u".data, "hi".data, 9000, false⟩

/-- Concrete history entry distinct from the current message of the
deduplication scenarios (sender `v`, body `yo`, 9500 ms). -/
def otherHistMsg : Message := ⟨"e2".data, "!r".data, "v".data, "yo".data, 9500, false⟩

/-- Round trip of `Char.ofNat` below the surrogate range. -/
theorem char_toNat_ofNat_small (n : Nat) (h : n < 55296) : (Char.ofNat n).toNat = n := by
  simp [Char.ofNat, Nat.isValidChar, h, Char.ofNatAux, Char.toNat, UInt32.toNat]

/-- ASCII lowercasing of a character is idempotent. -/
theorem charToLower_idem (c : Char) : Char.toLower (Char.toLower c) = Char.toLower c := by
  simp only [Char.toLower]
  by_cases h : c.toNat ≥ 65 ∧ c.toNat ≤ 90
  · rw [if_pos h]
    have hv : (Char.ofNat (c.toNat + 32)).toNat = c.toNat + 32 :=
      char_toNat_ofNat_small _ (by omega)
    rw [hv, if_neg (by omega)]
  · rw [if_neg h, if_neg h]

/-- Lowercasing a string is idempotent. -/
theorem strToLower_idem (s : Str) : strToLower (strToLower s) = strToLower s := by
  unfold strToLower
  rw [List.map_map]
  exact List.map_congr_left (fun c _ => charToLower_idem c)

/-- The splitter produces one more segment than there are separator
characters. -/
theorem strSplitBy_length (p : Char → Bool) (s : Str) :
    (strSplitBy p s).length = s.countP p + 1 := by
  induction s with
  | nil => rfl
  | cons c rest ih =>
    unfold strSplitBy
    rcases hr : strSplitBy p rest with _ | ⟨h, t⟩
    · rw [hr] at ih; simp at ih
    · rw [hr] at ih
      by_cases hp : p c
      · simp [hp, List.countP_cons]
        simp at ih
        omega
      · simp [hp, List.countP_cons]
        simp at ih
        omega

/-- A user ID whose colon count differs from one fails the domain check,
whatever the configured domain. -/
theorem isFromAllowedDomain_false_of_colons (allowedDomain userID : Str)
    (h : countChar ':' userID ≠ 1) : isFromAllowedDomain allowedDomain userID = false := by
  unfold isFromAllowedDomain
  dsimp only
  rw [if_neg]
  intro hlen
  unfold strSplitOnChar at hlen
  rw [strSplitBy_length] at hlen
  exact h (by unfold countChar; omega)

/-- Per-invocation facts about the sync callback: the startup time is
preserved, the watermark never decreases, and a dispatched event is the
delivered event itself and, when it carries a positive timestamp, is
not older than the startup time. -/
theorem onEvent_cases (u : Str) (s : SessionState) (e : MEvent) :
    (onEvent u s e).state.startupTime = s.startupTime ∧
    s.lastProcessedTime ≤ (onEvent u s e).state.lastProcessedTime ∧
    ((onEvent u s e).dispatched = none ∨
      ((onEvent u s e).dispatched = some e ∧
        (0 < e.timestamp → s.startupTime ≤ e.timestamp))) := by
  unfold onEvent
  by_cases h1 : e.timestamp > 0 ∧ e.timestamp < s.startupTime
  · simp [h1]
  · rw [if_neg h1]
    by_cases h2 : e.timestamp > 0 ∧ e.timestamp ≤ s.lastProcessedTime
    · simp [h2]
    · rw [if_neg h2]
      dsimp only
      by_cases h4 : e.timestamp > 0
      · have hs : s.startupTime ≤ e.timestamp := by
          rcases not_and_or.mp h1 with h | h
          · exact absurd h4 h
          · omega
        have hl : s.lastProcessedTime ≤ e.timestamp := by
          rcases not_and_or.mp h2 with h | h
          · exact absurd h4 h
          · omega
        rw [if_pos h4]
        by_cases h5 : e.eventType ≠ EventType.message
        · simp [h5, hl]
        · rw [if_neg h5]
          by_cases h6 : e.sender = u
          · simp [h6, hl]
          · simp [h6, hl, hs]
      · rw [if_neg h4]
        by_cases h5 : e.eventType ≠ EventType.message
        · simp [h5]
        · rw [if_neg h5]
          by_cases h6 : e.sender = u
          · simp [h6]
          · simp [h6, h4]

/-- Unfolding of event delivery over a cons cell. -/
theorem runEvents_cons (u : Str) (s : SessionState) (e : MEvent) (rest : List MEvent) :
    runEvents u s (e :: rest) =
      ((runEvents u (onEvent u s e).state rest).1,
        (match (onEvent u s e).dispatched with | some d => [d] | none => []) ++
          (runEvents u (onEvent u s e).state rest).2) := rfl

/-- Event delivery never changes the startup time. -/
theorem runEvents_startupTime (u : Str) (s : SessionState) (l : List MEvent) :
    (runEvents u s l).1.startupTime = s.startupTime := by
  induction l generalizing s with
  | nil => rfl
  | cons e rest ih =>
    rw [runEvents_cons]
    exact (ih _).trans (onEvent_cases u s e).1

/-- Event delivery never decreases the watermark. -/
theorem runEvents_last_mono (u : Str) (s : SessionState) (l : List MEvent) :
    s.lastProcessedTime ≤ (runEvents u s l).1.lastProcessedTime := by
  induction l generalizing s with
  | nil => exact le_refl _
  | cons e rest ih =>
    rw [runEvents_cons]
    exact le_trans (onEvent_cases u s e).2.1 (ih _)

/-- Delivering a concatenation reaches the same state as delivering the
two parts in sequence. -/
theorem runEvents_append_state (u : Str) (s : SessionState) (l1 l2 : List MEvent) :
    (runEvents u s (l1 ++ l2)).1 = (runEvents u (runEvents u s l1).1 l2).1 := by
  induction l1 generalizing s with
  | nil => rfl
  | cons e rest ih =>
    rw [List.cons_append, runEvents_cons, runEvents_cons]
    exact ih _

/-- An event with a positive timestamp older than the startup time is
never among the dispatched events of any delivery sequence. -/
theorem runEvents_no_stale (u : Str) (e : MEvent) (hpos : 0 < e.timestamp) :
    ∀ (events : List MEvent) (s0 : SessionState), e.timestamp < s0.startupTime →
      e ∉ (runEvents u s0 events).2 := by
  intro events
  induction events with
  | nil => intro s0 _; simp [runEvents]
  | cons a rest ih =>
    intro s0 hlt
    rw [runEvents_cons]
    intro hmem
    rcases List.mem_append.mp hmem with hm | hm
    · rcases (onEvent_cases u s0 a).2.2 with hnone | ⟨hsome, himp⟩
      · rw [hnone] at hm; simp at hm
      · rw [hsome] at hm
        simp at hm
        subst hm
        exact absurd (himp hpos) (not_le.mpr hlt)
    · exact ih _ ((onEvent_cases u s0 a).1 ▸ hlt) hm

/-- A processed history entry keeps the timestamp of its source event. -/
theorem processHistoryMessage_timestamp (botID : Str) (m : Message) (cm : ConversationMessage)
    (h : processHistoryMessage botID m = some cm) : cm.timestamp = m.timestamp := by
  unfold processHistoryMessage at h
  split at h
  · exact absurd h (by simp)
  · dsimp only at h
    split at h <;> split at h <;>
      first
        | (injection h with h'; rw [← h'])
        | exact absurd h (by simp)

/-- When some reconciled entry matches the current message, the window
is the reconciled history unchanged. -/
theorem contextList_eq_of_any (botID senderID currentMessage : Str) (ts : Int)
    (fetchResult : Except Str (List Message))
    (h : (reconciledHistory botID fetchResult).any
      (dedupMatches senderID currentMessage ts) = true) :
    contextList botID senderID currentMessage ts fetchResult =
      reconciledHistory botID fetchResult := by
  unfold contextList getConversationContext
  rw [if_pos h]

/-- When no reconciled entry matches the current message, the window is
the reconciled history with a fresh user entry appended. -/
theorem contextList_eq_of_not_any (botID senderID currentMessage : Str) (ts : Int)
    (fetchResult : Except Str (List Message))
    (h : (reconciledHistory botID fetchResult).any
      (dedupMatches senderID currentMessage ts) = false) :
    contextList botID senderID currentMessage ts fetchResult =
      reconciledHistory botID fetchResult ++
        [⟨Role.user, currentMessage, ts, senderID⟩] := by
  unfold contextList getConversationContext
  rw [if_neg (by rw [h]; exact Bool.false_ne_true)]

/-- Claim C1: for a history fetch in reverse-chronological order with
strictly decreasing timestamps along the fetch (that is, distinct
increasing timestamps in chronological order), none of whose events
postdates the current handling instant, the returned context window is
chronologically ordered: whenever `a` precedes `b` in the window,
`a.timestamp ≤ b.timestamp`. -/
theorem C1_context_window_chronological (botID senderID currentMessage : Str) (ts : Int)
    (msgs : List Message)
    (hrev : msgs.Pairwise (fun a b => b.timestamp < a.timestamp))
    (hle : ∀ m ∈ msgs, m.timestamp ≤ ts) :
    (contextList botID senderID currentMessage ts (Except.ok msgs)).Pairwise
      (fun a b => a.timestamp ≤ b.timestamp) := by
  have hfilter : (msgs.filter (fun m => !m.content.isEmpty)).Pairwise
      (fun a b => b.timestamp < a.timestamp) := hrev.filter _
  have hrevd : ((msgs.filter (fun m => !m.content.isEmpty)).reverse).Pairwise
      (fun a b => a.timestamp < b.timestamp) := List.pairwise_reverse.mpr hfilter
  have hL : (reconciledHistory botID (Except.ok msgs)).Pairwise
      (fun a b => a.timestamp ≤ b.timestamp) := by
    unfold reconciledHistory
    refine List.Pairwise.filterMap _ ?_ hrevd
    intro a a' hlt b hb b' hb'
    rw [processHistoryMessage_timestamp botID a b (Option.mem_def.mp hb),
      processHistoryMessage_timestamp botID a' b' (Option.mem_def.mp hb')]
    exact le_of_lt hlt
  have hmem : ∀ cm ∈ reconciledHistory botID (Except.ok msgs), cm.timestamp ≤ ts := by
    intro cm hcm
    unfold reconciledHistory at hcm
    rw [List.mem_filterMap] at hcm
    obtain ⟨m, hm, hfm⟩ := hcm
    rw [List.mem_reverse] at hm
    unfold historyFromFetch at hm
    rw [List.mem_filter] at hm
    rw [processHistoryMessage_timestamp botID m cm hfm]
    exact hle m hm.1
  rcases hany : (reconciledHistory botID (Except.ok msgs)).any
      (dedupMatches senderID currentMessage ts) with hf | ht
  · rw [contextList_eq_of_not_any botID senderID currentMessage ts (Except.ok msgs) hany]
    rw [List.pairwise_append]
    refine ⟨hL, List.pairwise_singleton _ _, ?_⟩
    intro a ha b hb
    rw [List.mem_singleton] at hb
    subst hb
    exact hmem a ha
  · rw [contextList_eq_of_any botID senderID currentMessage ts (Except.ok msgs) hany]
    exact hL

/-- Witness for C1 at a concrete two-event reverse-chronological fetch. -/
theorem C1_witness :
    (contextList "@b:hs".data "u".data "new message".data 10000
      (Except.ok [otherHistMsg, dupHistMsg])).Pairwise
      (fun a b => a.timestamp ≤ b.timestamp) :=
  C1_context_window_chronological "@b:hs".data "u".data "new message".data 10000
    [otherHistMsg, dupHistMsg] (by decide) (by decide)

/-- Claim C2, counterexample: an event without an origin timestamp
(timestamp 0) has a timestamp below the startup time (1000) yet is
dispatched to the handler, because the stale-event guard requires a
positive timestamp. -/
theorem C2_counterexample :
    (runEvents "@bot:hs".data sampleState [zeroTsEvent]).2 = [zeroTsEvent] ∧
    zeroTsEvent.timestamp < sampleState.startupTime := by decide

/-- Claim C2 as amended: an event with a positive timestamp below the
session's startup time is never dispatched to the handler, for any
sequence of delivered events and any starting session state. -/
theorem C2_stale_positive_never_dispatched (userID : Str) (s0 : SessionState)
    (events : List MEvent) (e : MEvent)
    (hpos : 0 < e.timestamp) (hlt : e.timestamp < s0.startupTime) :
    e ∉ (runEvents userID s0 events).2 :=
  runEvents_no_stale userID e hpos events s0 hlt

/-- Witness for C2 at a concrete stale event (timestamp 5, startup 1000). -/
theorem C2_witness : staleEvent ∉ (runEvents "@bot:hs".data sampleState [staleEvent]).2 :=
  C2_stale_positive_never_dispatched "@bot:hs".data sampleState [staleEvent] staleEvent
    (by decide) (by decide)

/-- Claim C3: the watermark `lastProcessedTime` is non-decreasing over
time: after any further events are delivered, it is at least its value
after any earlier prefix, regardless of the events' timestamps. -/
theorem C3_watermark_monotone (userID : Str) (s : SessionState) (pre extra : List MEvent) :
    (runEvents userID s pre).1.lastProcessedTime ≤
      (runEvents userID s (pre ++ extra)).1.lastProcessedTime := by
  rw [runEvents_append_state]
  exact runEvents_last_mono userID (runEvents userID s pre).1 extra

/-- Claim C4, counterexample: with identity `@henry:hs`, a content
carrying the token only as `@HENRY:hs` does not contain the original
casing, yet the full-identity check (and the whole detector) accepts
it, because the content is lowercased before the comparison. -/
theorem C4_counterexample :
    fullMentionCheck "@henry:hs".data "@HENRY:hs".data = true ∧
    strContains "@HENRY:hs".data "@henry:hs".data = false ∧
    isAddressedToBot "@henry:hs".data "@HENRY:hs".data RoomType.groupRoom = true := by decide

/-- Claim C4 as amended: the full-qualified-identity check lowercases
the content before searching for the verbatim identity token, so it is
insensitive to the content's letter case: lowercasing the content never
changes its outcome. -/
theorem C4_full_identity_check_case_insensitive (userID content : Str) :
    fullMentionCheck userID (strToLower content) = fullMentionCheck userID content := by
  unfold fullMentionCheck
  rw [strToLower_idem]

/-- Claim C5: in a direct room the mention detector returns true for
every content and every bot identity. -/
theorem C5_direct_room_always_true (userID content : Str) :
    isAddressedToBot userID content RoomType.directRoom = true := rfl

/-- Claim C6: with bot local name `henry`, the word-boundary rules give
false on `henrysmith did this` and true on `henry, hi` and on
`ask henry: what time is it` in a group room. -/
theorem C6_word_boundary_examples :
    isAddressedToBot "@henry:henhouse.im".data "henrysmith did this".data RoomType.groupRoom
      = false ∧
    isAddressedToBot "@henry:henhouse.im".data "henry, hi".data RoomType.groupRoom = true ∧
    isAddressedToBot "@henry:henhouse.im".data "ask henry: what time is it".data
      RoomType.groupRoom = true := by decide

/-- Claim C7, counterexample: the fetch holds an older matching entry
(`hi` from `u` at 9000) below a newest non-matching entry (`yo` from
`v` at 9500); the window's last entry differs from the current message
(`hi` from `u` at 10000), yet no fresh user entry is appended — the
deduplication scan matched the non-last entry. -/
theorem C7_counterexample :
    contextList "@b:hs".data "u".data "hi".data 10000 (Except.ok [otherHistMsg, dupHistMsg]) =
      [⟨Role.user, "hi".data, 9000, "u".data⟩, ⟨Role.user, "yo".data, 9500, "v".data⟩] ∧
    (contextList "@b:hs".data "u".data "hi".data 10000
        (Except.ok [otherHistMsg, dupHistMsg])).getLast? =
      some ⟨Role.user, "yo".data, 9500, "v".data⟩ ∧
    ("yo".data ≠ "hi".data ∨ "v".data ≠ "u".data) ∧
    (contextList "@b:hs".data "u".data "hi".data 10000
        (Except.ok [otherHistMsg, dupHistMsg])).any
      (fun m => decide (m.timestamp = 10000)) = false := by decide

/-- Claim C7 as amended: deduplication scans the whole reconciled
window, not only its last entry.  If any reconciled entry has the
current content and sender with a timestamp within 5000 ms before the
current timestamp, the current message is not appended; otherwise a
fresh user entry with the current timestamp is appended; and when the
last entry matches and is the only entry with that content and sender,
the returned window contains the message exactly once. -/
theorem C7_dedup_scans_whole_window (botID senderID currentMessage : Str) (ts : Int)
    (fetchResult : Except Str (List Message)) :
    ((reconciledHistory botID fetchResult).any
        (dedupMatches senderID currentMessage ts) = true →
      contextList botID senderID currentMessage ts fetchResult =
        reconciledHistory botID fetchResult) ∧
    ((reconciledHistory botID fetchResult).any
        (dedupMatches senderID currentMessage ts) = false →
      contextList botID senderID currentMessage ts fetchResult =
        reconciledHistory botID fetchResult ++
          [⟨Role.user, currentMessage, ts, senderID⟩]) ∧
    (∀ lastE, (reconciledHistory botID fetchResult).getLast? = some lastE →
      lastE.content = currentMessage → lastE.senderID = senderID →
      ts - lastE.timestamp < 5000 →
      (reconciledHistory botID fetchResult).countP
        (fun m => decide (m.content = currentMessage ∧ m.senderID = senderID)) = 1 →
      (contextList botID senderID currentMessage ts fetchResult).countP
        (fun m => decide (m.content = currentMessage ∧ m.senderID = senderID)) = 1) := by
  refine ⟨contextList_eq_of_any botID senderID currentMessage ts fetchResult,
    contextList_eq_of_not_any botID senderID currentMessage ts fetchResult,
    ?_⟩
  intro lastE hlast hc hs hts hcount
  have hmem : lastE ∈ reconciledHistory botID fetchResult :=
    List.mem_of_getLast?_eq_some hlast
  have hany : (reconciledHistory botID fetchResult).any
      (dedupMatches senderID currentMessage ts) = true := by
    rw [List.any_eq_true]
    exact ⟨lastE, hmem, by unfold dedupMatches; exact decide_eq_true ⟨hc, hs, hts⟩⟩
  rw [contextList_eq_of_any botID senderID currentMessage ts fetchResult hany]
  exact hcount

/-- Witness for C7: a matching last entry yields a window containing the
message exactly once, and a non-matching history gets the current
message appended. -/
theorem C7_witness :
    (contextList "@b:hs".data "u".data "hi".data 10000 (Except.ok [dupHistMsg])).countP
      (fun m => decide (m.content = "hi".data ∧ m.senderID = "u".data)) = 1 ∧
    contextList "@b:hs".data "u".data "bye".data 10000 (Except.ok [dupHistMsg]) =
      reconciledHistory "@b:hs".data (Except.ok [dupHistMsg]) ++
        [⟨Role.user, "bye".data, 10000, "u".data⟩] :=
  ⟨(C7_dedup_scans_whole_window "@b:hs".data "u".data "hi".data 10000
      (Except.ok [dupHistMsg])).2.2
      ⟨Role.user, "hi".data, 9000, "u".data⟩ (by decide) (by decide) (by decide) (by decide)
      (by decide),
    (C7_dedup_scans_whole_window "@b:hs".data "u".data "bye".data 10000
      (Except.ok [dupHistMsg])).2.1 (by decide)⟩

/-- Claim C8: a failing history fetch is not propagated — the context
is returned without error and consists of exactly the single user entry
for the current message; and for every fetch result the function
returns without error. -/
theorem C8_fetch_failure_degrades (botID senderID currentMessage : Str) (ts : Int) (e : Str) :
    getConversationContext botID senderID currentMessage ts (Except.error e) =
      Except.ok [⟨Role.user, currentMessage, ts, senderID⟩] ∧
    ∀ fetchResult, ∃ msgs,
      getConversationContext botID senderID currentMessage ts fetchResult =
        Except.ok msgs := by
  constructor
  · rfl
  · intro fetchResult
    unfold getConversationContext
    dsimp only
    split
    · exact ⟨_, rfl⟩
    · exact ⟨_, rfl⟩

/-- Claim C9, counterexample: a clean (error-free) sync termination
with a known next-batch cursor re-enters streaming immediately — the
wait before the next iteration is 0 ms, not the 5 seconds the claim
prescribes for every non-authentication termination. -/
theorem C9_counterexample :
    syncLoopStep "tok".data none "nb".data = ⟨"nb".data, ["nb".data], 0, true⟩ ∧
    (syncLoopStep "tok".data none "nb".data).sleepMs ≠ 5000 := by decide

/-- Claim C9 as amended: on an authentication-signature error the loop
clears the in-memory token, writes an empty value to the store, and
terminates without re-entering streaming; on any other error it waits
5 seconds and re-enters, persisting the non-empty next-batch cursor;
on a clean nil-error termination it likewise persists and re-enters,
but immediately, without the 5-second wait. -/
theorem C9_termination_handling (syncToken nextBatch : Str) (msg : Str) :
    (isAuthErrorMsg msg = true →
      syncLoopStep syncToken (some msg) nextBatch = ⟨[], [[]], 0, false⟩) ∧
    (isAuthErrorMsg msg = false →
      (syncLoopStep syncToken (some msg) nextBatch).sleepMs = 5000 ∧
      (syncLoopStep syncToken (some msg) nextBatch).reenter = true ∧
      (nextBatch.isEmpty = false →
        (syncLoopStep syncToken (some msg) nextBatch).storeWrites = [nextBatch])) ∧
    ((syncLoopStep syncToken none nextBatch).sleepMs = 0 ∧
      (syncLoopStep syncToken none nextBatch).reenter = true ∧
      (nextBatch.isEmpty = false →
        (syncLoopStep syncToken none nextBatch).storeWrites = [nextBatch])) := by
  refine ⟨fun h => ?_, fun h => ?_, ?_⟩
  · simp [syncLoopStep, h]
  · simp only [syncLoopStep, h]
    refine ⟨rfl, rfl, fun hnb => ?_⟩
    simp [hnb]
  · refine ⟨rfl, rfl, fun hnb => ?_⟩
    simp [syncLoopStep, hnb]

/-- Witness for C9: the auth branch at an `Invalid access token` error,
and the transient branch at an unrelated error. -/
theorem C9_witness :
    syncLoopStep "t".data (some "Invalid access token is bad".data) "nb".data =
      ⟨[], [[]], 0, false⟩ ∧
    (syncLoopStep "t".data (some "boom".data) "nb".data).sleepMs = 5000 ∧
    (syncLoopStep "t".data (some "boom".data) "nb".data).storeWrites = ["nb".data] :=
  ⟨(C9_termination_handling "t".data "nb".data "Invalid access token is bad".data).1
      (by decide),
    ((C9_termination_handling "t".data "nb".data "boom".data).2.1 (by decide)).1,
    ((C9_termination_handling "t".data "nb".data "boom".data).2.1 (by decide)).2.2
      (by decide)⟩

/-- Claim C10: a user ID without exactly one colon separator is
rejected by the domain check for every configured domain, and
`HandleMessage` then silently ignores the message: it sends nothing and
returns no error. -/
theorem C10_malformed_sender_ignored (env : HandlerEnv) (senderID roomID content : Str)
    (h : countChar ':' senderID ≠ 1) :
    isFromAllowedDomain env.allowedDomain senderID = false ∧
    (handleMessage env senderID roomID content).sentMessages = [] ∧
    (handleMessage env senderID roomID content).result = Except.ok () := by
  have hd := isFromAllowedDomain_false_of_colons env.allowedDomain senderID h
  refine ⟨hd, ?_, ?_⟩ <;>
  · unfold handleMessage
    by_cases hc : content = []
    · rw [if_pos hc]
    · rw [if_neg hc, if_pos (by rw [hd]; rfl)]

/-- Witness for C10 at the colon-free sender `u1`. -/
theorem C10_witness :
    isFromAllowedDomain "hs".data "u1".data = false ∧
    (handleMessage ⟨"@b:hs".data, "hs".data, Except.ok RoomType.groupRoom, Except.ok [],
        0, Except.ok "x".data, Except.ok ()⟩ "u1".data "!r:hs".data "hello".data).sentMessages
      = [] ∧
    (handleMessage ⟨"@b:hs".data, "hs".data, Except.ok RoomType.groupRoom, Except.ok [],
        0, Except.ok "x".data, Except.ok ()⟩ "u1".data "!r:hs".data "hello".data).result
      = Except.ok () :=
  C10_malformed_sender_ignored ⟨"@b:hs".data, "hs".data, Except.ok RoomType.groupRoom,
    Except.ok [], 0, Except.ok "x".data, Except.ok ()⟩ "u1".data "!r:hs".data "hello".data
    (by decide)

end GoHenry
